import Mathlib

/-!
A verification development for the crash-game round engine in
`src/server/game-logic.js` (class `GameEngine`).

Modelling conventions:
* Machine numbers (bet amounts, multipliers, probabilities, statistics) are
  modelled as `ℚ`; the real-valued growth curve `calculateMultiplier`, which
  the source computes with `Math.exp`, is modelled over `ℝ` with `Real.exp`.
* The engine object is the `Engine` structure.  `this.emit(...)` is modelled
  by appending an `Ev` value to the `events` field.  Event payloads are
  reduced to the fields the verified properties mention; wall-clock
  timestamps, display rounding of broadcast payloads, socket wiring, console
  logging and timer scheduling are outside the model.
* `Math.random()` draws, the elapsed-time clock, and the prediction-broadcast
  throttle are supplied to `updateGame`/`shouldCrash` as explicit oracle
  parameters, since they are the only nondeterministic inputs of a tick.
* JS `Map` is an insertion-ordered association list with unique keys
  (`mapSet`, `mapGet`); JS `Set` is a duplicate-free list (`setAdd`).
* The optional `autoCashOut` argument (`null` when absent) is `Option ℚ`;
  JS truthiness of a number-or-null value is `jsTruthy` (`null`, `0` falsy).
-/

/-- The four values of `GAME_STATES` in the source. -/
inductive GameState where
  | waiting
  | starting
  | flying
  | crashed
deriving DecidableEq, Repr

/-- Per-player wager data stored in `this.activePlayers`
(`{ bet, autoCashOut, hasWon, placedAt }` as written by `placeBet`). -/
structure PData where
  bet : ℚ
  autoCashOut : Option ℚ
  hasWon : Bool
  placedAt : ℕ
deriving DecidableEq, Repr

/-- One participant record built by `finalizeBets`. -/
structure Participant where
  playerId : ℕ
  betAmount : ℚ
  autoCashOut : Option ℚ
  hasWon : Bool
deriving DecidableEq, Repr

/-- Events emitted by the engine.  Payloads are restricted to the fields the
claims reference; timestamp/display fields of the source payloads are
omitted. -/
inductive Ev where
  | gameStateChanged (state : GameState) (multiplier : ℚ)
  | multiplierUpdate (multiplier : ℚ)
  | playerAutoCashedOut (playerId : ℕ) (multiplier winAmount betAmount : ℚ)
  | roundSettled (finalMultiplier : ℚ) (losers : List (ℕ × ℚ))
      (participants : List Participant)
deriving DecidableEq, Repr

/-- The engine state: the mutable fields of `GameEngine` that the verified
operations read or write (timers, the socket handle and the prediction
throttle bookkeeping are not part of the state model). -/
structure Engine where
  state : GameState
  multiplier : ℚ
  startTime : Option ℕ
  gameId : ℕ
  history : List ℚ
  activePlayers : List (ℕ × PData)
  cashedOutPlayers : List ℕ
  statsTotalGames : ℕ
  statsTotalBets : ℚ
  statsTotalPayouts : ℚ
  statsAverageMultiplier : ℚ
  events : List Ev
deriving DecidableEq, Repr

/-! ### Configuration constants (`this.config`, `this.growth`) -/

/-- `config.historySize`. -/
def historySize : ℕ := 20

/-- `growth.rate`. -/
noncomputable def growthRate : ℝ := 0.2

/-- `growth.minMultiplier`. -/
noncomputable def growthMinMultiplier : ℝ := 1.0

/-- `growth.capMultiplier`. -/
noncomputable def growthCapMultiplier : ℝ := 250

/-! ### Multiplier growth and crash probability -/

/-- `calculateMultiplier(timeInSeconds)`:
`Math.min(Math.max(Math.exp(rate * t), minMultiplier), capMultiplier)`. -/
noncomputable def calculateMultiplier (timeInSeconds : ℝ) : ℝ :=
  min (max (Real.exp (growthRate * timeInSeconds)) growthMinMultiplier)
    growthCapMultiplier

/-- The per-tick crash probability computed inside `shouldCrash`: the local
`crashChance` variable.  The source initialises it to `0.0008`, adds
`(elapsedSeconds - 30) * 0.0006` once `elapsedSeconds > 30`, adds
`(multiplier - 5) * 0.0015` once `multiplier > 5`, and caps the sum at
`0.08`. -/
def crashChance (elapsedSeconds multiplier : ℚ) : ℚ :=
  min ((0.0008
        + (if 30 < elapsedSeconds then (elapsedSeconds - 30) * 0.0006 else 0))
        + (if 5 < multiplier then (multiplier - 5) * 0.0015 else 0))
    0.08

/-- `shouldCrash(multiplier)`: returns `Math.random() < crashChance`.  The
elapsed clock and the random draw are oracle parameters. -/
def shouldCrash (elapsedSeconds multiplier roll : ℚ) : Bool :=
  decide (roll < crashChance elapsedSeconds multiplier)

/-- C4: the multiplier computed from elapsed flight time equals
`clamp(exp(rate × elapsed), 1.0, cap)` with the configured rate `0.2` and cap
`250`; for every elapsed time `t ≥ 0` the result lies in `[1, 250]`, and the
function is monotonically non-decreasing in elapsed time. -/
theorem calculateMultiplier_spec :
    (∀ t : ℝ, calculateMultiplier t
      = min (max (Real.exp ((0.2 : ℝ) * t)) 1) 250) ∧
    (∀ t : ℝ, 0 ≤ t →
      1 ≤ calculateMultiplier t ∧ calculateMultiplier t ≤ 250) ∧
    (∀ t1 t2 : ℝ, t1 ≤ t2 → calculateMultiplier t1 ≤ calculateMultiplier t2) := by
  refine ⟨?_, ?_, ?_⟩
  · intro t
    simp [calculateMultiplier, growthRate, growthMinMultiplier, growthCapMultiplier]
    norm_num
  · intro t _
    constructor
    · apply le_min
      · exact le_trans (by norm_num [growthMinMultiplier]) (le_max_right _ _)
      · norm_num [growthCapMultiplier]
    · exact min_le_right _ _
  · intro t1 t2 h
    have hexp : Real.exp (growthRate * t1) ≤ Real.exp (growthRate * t2) := by
      apply Real.exp_le_exp.2
      apply mul_le_mul_of_nonneg_left h
      norm_num [growthRate]
    exact min_le_min (max_le_max hexp le_rfl) le_rfl

/-- Witness for `calculateMultiplier_spec` at `t = 1` and `t1 = 0 ≤ t2 = 1`. -/
theorem calculateMultiplier_spec_witness :
    (0 : ℝ) ≤ 1 ∧
    (1 ≤ calculateMultiplier 1 ∧ calculateMultiplier 1 ≤ 250) ∧
    calculateMultiplier 0 ≤ calculateMultiplier 1 :=
  ⟨by norm_num, calculateMultiplier_spec.2.1 1 (by norm_num),
    calculateMultiplier_spec.2.2 0 1 (by norm_num)⟩

/-- C5: for elapsed ≥ 0 and multiplier ≥ 1, the per-tick crash probability
lies in `[0, 1]`, is capped at `0.08`, and is non-decreasing separately in
elapsed time and in the multiplier. -/
theorem crashChance_spec :
    (∀ elapsed mult : ℚ, 0 ≤ elapsed → 1 ≤ mult →
      0 ≤ crashChance elapsed mult ∧ crashChance elapsed mult ≤ 0.08 ∧
        crashChance elapsed mult ≤ 1) ∧
    (∀ e1 e2 m : ℚ, 0 ≤ e1 → 1 ≤ m → e1 ≤ e2 →
      crashChance e1 m ≤ crashChance e2 m) ∧
    (∀ e m1 m2 : ℚ, 0 ≤ e → 1 ≤ m1 → m1 ≤ m2 →
      crashChance e m1 ≤ crashChance e m2) := by
  refine ⟨?_, ?_, ?_⟩
  · intro elapsed mult _ _
    refine ⟨?_, min_le_right _ _, le_trans (min_le_right _ _) (by norm_num)⟩
    apply le_min
    · have h1 : (0 : ℚ) ≤ (if 30 < elapsed then (elapsed - 30) * 0.0006 else 0) := by
        split
        · apply mul_nonneg (by linarith) (by norm_num)
        · exact le_refl 0
      have h2 : (0 : ℚ) ≤ (if 5 < mult then (mult - 5) * 0.0015 else 0) := by
        split
        · apply mul_nonneg (by linarith) (by norm_num)
        · exact le_refl 0
      linarith
    · norm_num
  · intro e1 e2 m _ _ h
    unfold crashChance
    apply min_le_min _ le_rfl
    have : (if 30 < e1 then (e1 - 30) * 0.0006 else 0)
        ≤ (if 30 < e2 then (e2 - 30) * 0.0006 else 0) := by
      split
      · rw [if_pos (by linarith)]
        apply mul_le_mul_of_nonneg_right (by linarith) (by norm_num)
      · split
        · apply mul_nonneg (by linarith) (by norm_num)
        · exact le_refl 0
    linarith
  · intro e m1 m2 _ _ h
    unfold crashChance
    apply min_le_min _ le_rfl
    have : (if 5 < m1 then (m1 - 5) * 0.0015 else 0)
        ≤ (if 5 < m2 then (m2 - 5) * 0.0015 else 0) := by
      split
      · rw [if_pos (by linarith)]
        apply mul_le_mul_of_nonneg_right (by linarith) (by norm_num)
      · split
        · apply mul_nonneg (by linarith) (by norm_num)
        · exact le_refl 0
    linarith

/-- Witness for `crashChance_spec` at `(elapsed, mult) = (0, 1)` and the two
monotonicity conjuncts at concrete inputs. -/
theorem crashChance_spec_witness :
    (0 ≤ crashChance 0 1 ∧ crashChance 0 1 ≤ 0.08 ∧ crashChance 0 1 ≤ 1) ∧
    crashChance 0 1 ≤ crashChance 40 1 ∧
    crashChance 0 1 ≤ crashChance 0 10 :=
  ⟨crashChance_spec.1 0 1 (by norm_num) (by norm_num),
    crashChance_spec.2.1 0 40 1 (by norm_num) (by norm_num) (by norm_num),
    crashChance_spec.2.2 0 1 10 (by norm_num) (by norm_num) (by norm_num)⟩

/-! ### Map/Set helpers (JS `Map` and `Set` on the engine's fields) -/

/-- JS truthiness of a number-or-null value: `null` and `0` are falsy. -/
def jsTruthy : Option ℚ → Bool
  | none => false
  | some q => decide (q ≠ 0)

/-- `Map.prototype.set`: overwrite in place when the key exists, else append. -/
def mapSet (m : List (ℕ × PData)) (k : ℕ) (v : PData) : List (ℕ × PData) :=
  if k ∈ m.map Prod.fst then
    m.map (fun p => if p.1 = k then (k, v) else p)
  else m ++ [(k, v)]

/-- `Map.prototype.get`. -/
def mapGet (m : List (ℕ × PData)) (k : ℕ) : Option PData :=
  (m.find? (fun p => decide (p.1 = k))).map Prod.snd

/-- Mutation `playerData.hasWon = true` of the object stored under key `k`. -/
def setHasWon (m : List (ℕ × PData)) (k : ℕ) : List (ℕ × PData) :=
  m.map (fun p => if p.1 = k then (p.1, { p.2 with hasWon := true }) else p)

/-- `Set.prototype.add`. -/
def setAdd (s : List ℕ) (k : ℕ) : List ℕ :=
  if k ∈ s then s else s ++ [k]

/-! ### Commands: placeBet / cashOut -/

/-- `canPlaceBet()`. -/
def canPlaceBet (e : Engine) : Bool :=
  decide (e.state = GameState.waiting) || decide (e.state = GameState.starting)

/-- `placeBet(playerId, amount, autoCashOut = null)`.  Returns the boolean
result of the source together with the updated engine.  The source performs
no validation of `amount`. -/
def placeBet (e : Engine) (playerId : ℕ) (amount : ℚ) (autoCashOut : Option ℚ)
    (now : ℕ) : Bool × Engine :=
  if ¬ (canPlaceBet e = true) then (false, e)
  else if jsTruthy autoCashOut = true ∧ autoCashOut.getD 0 < 1.01 then (false, e)
  else
    (true,
      { e with
        activePlayers := mapSet e.activePlayers playerId
          ⟨amount, autoCashOut, false, now⟩,
        statsTotalBets := e.statsTotalBets + amount })

/-- The result object of `cashOut`. -/
inductive CashOutResult where
  | failure (error : String)
  | success (multiplier winAmount betAmount : ℚ)
deriving DecidableEq, Repr

/-- `cashOut(playerId)`. -/
def cashOut (e : Engine) (playerId : ℕ) : CashOutResult × Engine :=
  if e.state ≠ GameState.flying then
    (.failure "Cannot cash out at this time", e)
  else if playerId ∉ e.activePlayers.map Prod.fst then
    (.failure "No active bet found", e)
  else if playerId ∈ e.cashedOutPlayers then
    (.failure "Already cashed out", e)
  else
    match mapGet e.activePlayers playerId with
    | none => (.failure "No active bet found", e)  -- unreachable: `has` checked
    | some playerData =>
      let winAmount := playerData.bet * e.multiplier
      (.success e.multiplier winAmount playerData.bet,
        { e with
          cashedOutPlayers := setAdd e.cashedOutPlayers playerId,
          activePlayers := setHasWon e.activePlayers playerId,
          statsTotalPayouts := e.statsTotalPayouts + winAmount })

/-! ### Auto cash outs -/

/-- `performAutoCashOut(playerId, playerData)`. -/
def performAutoCashOut (e : Engine) (playerId : ℕ) (playerData : PData) :
    Engine :=
  let winAmount := playerData.bet * e.multiplier
  { e with
    cashedOutPlayers := setAdd e.cashedOutPlayers playerId,
    activePlayers := setHasWon e.activePlayers playerId,
    statsTotalPayouts := e.statsTotalPayouts + winAmount,
    events := e.events
      ++ [Ev.playerAutoCashedOut playerId e.multiplier winAmount
            playerData.bet] }

/-- The body of the `checkAutoCashOuts` loop for one `[playerId, playerData]`
entry.  The guard is the conjunction
`playerData.autoCashOut && !cashedOutPlayers.has(playerId) &&
multiplier >= playerData.autoCashOut` (short-circuit `&&` equals the logical
conjunction here; the threshold comparison is only reached when the threshold
is truthy). -/
def autoCashOutStep (acc : Engine) (entry : ℕ × PData) : Engine :=
  if jsTruthy entry.2.autoCashOut = true ∧ entry.1 ∉ acc.cashedOutPlayers ∧
      entry.2.autoCashOut.getD 0 ≤ acc.multiplier then
    performAutoCashOut acc entry.1 entry.2
  else acc

/-- `checkAutoCashOuts()`: iterates over the map entries (the key set does not
change during the loop, so iterating the entry list present at loop start is
the source's iteration). -/
def checkAutoCashOuts (e : Engine) : Engine :=
  e.activePlayers.foldl autoCashOutStep e

/-! ### Settlement and history -/

/-- The loop of `finalizeBets`, producing `(participants, losers)` in entry
order. -/
def finalizeBetsList (cashedOut : List ℕ) :
    List (ℕ × PData) → List Participant × List (ℕ × ℚ)
  | [] => ([], [])
  | (playerId, playerData) :: rest =>
    let r := finalizeBetsList cashedOut rest
    (⟨playerId, playerData.bet, playerData.autoCashOut,
        decide (playerId ∈ cashedOut)⟩ :: r.1,
      if playerId ∈ cashedOut then r.2
      else (playerId, playerData.bet) :: r.2)

/-- `finalizeBets()`: builds the settlement record and atomically clears the
wager and settlement sets. -/
def finalizeBets (e : Engine) :
    (List Participant × List (ℕ × ℚ)) × Engine :=
  (finalizeBetsList e.cashedOutPlayers e.activePlayers,
    { e with activePlayers := [], cashedOutPlayers := [] })

/-- `parseFloat(multiplier.toFixed(2))`: rounding to two decimal places. -/
def toFixed2 (q : ℚ) : ℚ := (round (q * 100) : ℤ) / 100

/-- The list transformation of `addToHistory(multiplier)`: `unshift` the
rounded value, then `pop` the oldest entry when over capacity. -/
def addToHistoryList (hist : List ℚ) (multiplier : ℚ) : List ℚ :=
  let h := toFixed2 multiplier :: hist
  if h.length > historySize then h.dropLast else h

/-- `addToHistory` applied to the engine. -/
def addToHistory (e : Engine) (multiplier : ℚ) : Engine :=
  { e with history := addToHistoryList e.history multiplier }

/-- `updateAverageMultiplier()`. -/
def updateAverageMultiplier (e : Engine) : Engine :=
  if e.history.length > 0 then
    { e with statsAverageMultiplier := e.history.sum / e.history.length }
  else e

/-- `crashGame(trigger = null)`.  `trigger` appears in the source only inside
a console-log line; it reaches neither the engine state nor any emitted
event payload.  The source's sequential field mutations are collapsed into
one record update; note that `updateAverageMultiplier` runs before
`addToHistory` in the source, so the average is over the pre-crash history,
and `finalizeBets` reads the wager sets before clearing them. -/
def crashGame (e : Engine) (trigger : Option String) : Engine :=
  let settlement := finalizeBetsList e.cashedOutPlayers e.activePlayers
  { e with
    state := GameState.crashed,
    statsTotalGames := e.statsTotalGames + 1,
    statsAverageMultiplier :=
      if e.history.length > 0 then e.history.sum / e.history.length
      else e.statsAverageMultiplier,
    history := addToHistoryList e.history e.multiplier,
    activePlayers := [],
    cashedOutPlayers := [],
    events := e.events
      ++ (if e.startTime.isSome then [Ev.multiplierUpdate e.multiplier] else [])
      ++ [Ev.gameStateChanged GameState.crashed e.multiplier]
      ++ [Ev.roundSettled e.multiplier settlement.2 settlement.1] }

/-- The result object of `forceCrash`. -/
inductive ForceCrashResult where
  | failure (error : String)
  | success (multiplier : ℚ)
deriving DecidableEq, Repr

/-- `forceCrash(reason = 'admin_override')`.  The returned multiplier is read
after `crashGame` runs, as in the source. -/
def forceCrash (e : Engine) (reason : String) : ForceCrashResult × Engine :=
  if e.state ≠ GameState.flying then
    (.failure "Game is not currently flying", e)
  else
    let e1 := crashGame e (some reason)
    (.success e1.multiplier, e1)

/-! ### The tick and the round lifecycle -/

/-- `updateGame()`.  Oracle inputs: `newMultiplier` is the value of
`calculateMultiplier(elapsed)` (a float in the source), `emitPrediction` is
the outcome of the prediction-broadcast time throttle, `crashRoll` is the
outcome of the `shouldCrash` Bernoulli draw, and `maxTimeExceeded` is
`elapsed >= maxGameTime / 1000`. -/
def updateGame (e : Engine) (newMultiplier : ℚ)
    (emitPrediction crashRoll maxTimeExceeded : Bool) : Engine :=
  if e.state ≠ GameState.flying then e
  else
    let e1 := { e with
      multiplier := newMultiplier,
      events := e.events
        ++ (if emitPrediction then [Ev.multiplierUpdate newMultiplier] else []) }
    if crashRoll then crashGame e1 none
    else if maxTimeExceeded then crashGame e1 none
    else
      let e2 := checkAutoCashOuts e1
      { e2 with
        events := e2.events ++ [Ev.gameStateChanged e2.state e2.multiplier] }

/-- `startGame()`: enter FLYING, reset the multiplier, clear settlement
markers, emit the zero-elapsed snapshot. -/
def startGame (e : Engine) (now : ℕ) : Engine :=
  { e with
    state := GameState.flying,
    multiplier := 1,
    startTime := some now,
    gameId := e.gameId + 1,
    cashedOutPlayers := [],
    events := e.events ++ [Ev.gameStateChanged GameState.flying 1] }

/-- `startCountdown()`: enter STARTING and clear leftover settlement
markers. -/
def startCountdown (e : Engine) : Engine :=
  { e with
    state := GameState.starting,
    cashedOutPlayers := [],
    events := e.events
      ++ [Ev.gameStateChanged GameState.starting e.multiplier] }

/-- `removePlayer(playerId)`. -/
def removePlayer (e : Engine) (playerId : ℕ) : Engine :=
  { e with
    activePlayers := e.activePlayers.filter (fun p => decide (p.1 ≠ playerId)),
    cashedOutPlayers := e.cashedOutPlayers.filter (fun q => decide (q ≠ playerId)) }

/-! ### Event observations -/

/-- Whether an event is the auto-cash-out notice for `playerId`. -/
def isAutoFor (playerId : ℕ) : Ev → Bool
  | .playerAutoCashedOut pid _ _ _ => decide (pid = playerId)
  | _ => false

/-- Number of `player_auto_cashed_out` events for `playerId`. -/
def autoEventsFor (playerId : ℕ) (evs : List Ev) : ℕ :=
  evs.countP (isAutoFor playerId)

/-- Extract a `round_settled` payload. -/
def settledOf : Ev → Option (ℚ × List (ℕ × ℚ) × List Participant)
  | .roundSettled fm ls ps => some (fm, ls, ps)
  | _ => none

/-- All `round_settled` payloads in an event list, in emission order. -/
def settledEvents (evs : List Ev) : List (ℚ × List (ℕ × ℚ) × List Participant) :=
  evs.filterMap settledOf

/-! ### One round as a sequence of externally triggered steps

While a round is FLYING the engine state changes only through `updateGame`
ticks, `cashOut` calls and `forceCrash` calls (bets are closed, and the
WAITING/STARTING timers of the next round fire only after the post-crash
display delay, outside the round). -/

/-- The inputs a round consumes: ticks with their oracle inputs, manual
cash-out requests, and admin force-crash calls. -/
inductive RoundAct where
  | tick (newMultiplier : ℚ) (emitPrediction crashRoll maxTimeExceeded : Bool)
  | manual (playerId : ℕ)
  | force (reason : String)

/-- A running round: the engine plus the observed results of manual cash-out
commands (`cashOut` reports success in its return value, not via an
event). -/
structure RoundRun where
  eng : Engine
  manualOks : List ℕ

/-- One externally triggered step of a round. -/
def roundStep (s : RoundRun) (a : RoundAct) : RoundRun :=
  match a with
  | .tick m p c x => { s with eng := updateGame s.eng m p c x }
  | .manual playerId =>
    let r := cashOut s.eng playerId
    { eng := r.2,
      manualOks :=
        match r.1 with
        | .success _ _ _ => s.manualOks ++ [playerId]
        | .failure _ => s.manualOks }
  | .force reason => { s with eng := (forceCrash s.eng reason).2 }

/-- Run a round through a sequence of steps. -/
def runRound (s : RoundRun) (acts : List RoundAct) : RoundRun :=
  acts.foldl roundStep s

/-- Invariant maintained while the round is FLYING: the wager keys are still
the round's initial keys, no settlement has been emitted yet, and each
player's observed settlements (manual cash-out successes plus auto-cash-out
events) match membership of the settled set exactly. -/
def EngInv (keys0 moks : List ℕ) (e : Engine) : Prop :=
  e.activePlayers.map Prod.fst = keys0 ∧
  settledEvents e.events = [] ∧
  ∀ pid : ℕ, moks.count pid + autoEventsFor pid e.events
    = if pid ∈ e.cashedOutPlayers then 1 else 0

/-- After the crash: exactly one `round_settled` event exists, and every
initial wager has exactly one outcome among manual cash-out, auto cash-out
and the losers list. -/
def SettledOnce (keys0 : List ℕ) (s : RoundRun) : Prop :=
  ∃ fm losers parts,
    settledEvents s.eng.events = [(fm, losers, parts)] ∧
    ∀ pid ∈ keys0,
      s.manualOks.count pid + autoEventsFor pid s.eng.events
        + (losers.map Prod.fst).count pid = 1

/-- The round invariant: FLYING with `EngInv`, or CRASHED with the round
settled exactly once. -/
def RoundInv (keys0 : List ℕ) (s : RoundRun) : Prop :=
  (s.eng.state = GameState.flying ∧ EngInv keys0 s.manualOks s.eng) ∨
  (s.eng.state = GameState.crashed ∧ SettledOnce keys0 s)

/-! ### Concrete engines used by counterexamples and witnesses -/

/-- An engine in WAITING with no wagers. -/
def engineW : Engine :=
  { state := GameState.waiting, multiplier := 1, startTime := none,
    gameId := 0, history := [], activePlayers := [], cashedOutPlayers := [],
    statsTotalGames := 0, statsTotalBets := 0, statsTotalPayouts := 0,
    statsAverageMultiplier := 0, events := [] }

/-- An engine in FLYING at 5/2× with one unsettled wager of 100 for
player 1. -/
def engineF : Engine :=
  { state := GameState.flying, multiplier := 5 / 2, startTime := some 0,
    gameId := 1, history := [],
    activePlayers := [(1, ⟨100, none, false, 0⟩)], cashedOutPlayers := [],
    statsTotalGames := 0, statsTotalBets := 100, statsTotalPayouts := 0,
    statsAverageMultiplier := 0, events := [] }

/-! ### Helper lemmas about the map/set embedding -/

lemma canPlaceBet_iff (e : Engine) :
    canPlaceBet e = true ↔
      (e.state = GameState.waiting ∨ e.state = GameState.starting) := by
  simp [canPlaceBet]

lemma mem_setAdd {c : List ℕ} {k q : ℕ} :
    q ∈ setAdd c k ↔ q ∈ c ∨ q = k := by
  unfold setAdd
  split
  · rename_i h
    constructor
    · exact Or.inl
    · rintro (h1 | rfl)
      · exact h1
      · exact h
  · simp

lemma setAdd_of_not_mem {c : List ℕ} {k : ℕ} (h : k ∉ c) :
    setAdd c k = c ++ [k] := by
  simp [setAdd, h]

lemma mapGet_nil (k : ℕ) : mapGet [] k = none := rfl

lemma mapGet_cons (p : ℕ × PData) (rest : List (ℕ × PData)) (k : ℕ) :
    mapGet (p :: rest) k = if p.1 = k then some p.2 else mapGet rest k := by
  unfold mapGet
  by_cases hp : p.1 = k
  · rw [List.find?_cons_of_pos _ (by simp [hp]), if_pos hp]
    rfl
  · rw [List.find?_cons_of_neg _ (by simp [hp]), if_neg hp]

lemma mapGet_mem {m : List (ℕ × PData)} {k : ℕ}
    (h : k ∈ m.map Prod.fst) : ∃ d, mapGet m k = some d := by
  induction m with
  | nil => simp at h
  | cons p rest ih =>
    by_cases hp : p.1 = k
    · exact ⟨p.2, by rw [mapGet_cons, if_pos hp]⟩
    · have h' : k ∈ rest.map Prod.fst := by
        simp only [List.map_cons, List.mem_cons] at h
        rcases h with h | h
        · exact absurd h.symm hp
        · exact h
      obtain ⟨d, hd⟩ := ih h'
      exact ⟨d, by rw [mapGet_cons, if_neg hp]; exact hd⟩

lemma mapGet_update_self (m : List (ℕ × PData)) (k : ℕ) (v : PData)
    (hmem : k ∈ m.map Prod.fst) :
    mapGet (m.map (fun p => if p.1 = k then (k, v) else p)) k = some v := by
  induction m with
  | nil => simp at hmem
  | cons p rest ih =>
    by_cases hp : p.1 = k
    · simp only [List.map_cons, if_pos hp, mapGet_cons]
      simp
    · have hmem' : k ∈ rest.map Prod.fst := by
        simp only [List.map_cons, List.mem_cons] at hmem
        rcases hmem with h | h
        · exact absurd h.symm hp
        · exact h
      simp only [List.map_cons, if_neg hp, mapGet_cons]
      exact ih hmem'

lemma mapGet_append_self (m : List (ℕ × PData)) (k : ℕ) (v : PData)
    (hmem : k ∉ m.map Prod.fst) :
    mapGet (m ++ [(k, v)]) k = some v := by
  induction m with
  | nil => rw [List.nil_append, mapGet_cons, if_pos rfl]
  | cons p rest ih =>
    have hp : ¬ p.1 = k := fun h => hmem (by simp [h])
    have hmem' : k ∉ rest.map Prod.fst := fun h => hmem (by simp [h])
    rw [List.cons_append, mapGet_cons, if_neg hp]
    exact ih hmem'

lemma mapGet_mapSet_self (m : List (ℕ × PData)) (k : ℕ) (v : PData) :
    mapGet (mapSet m k v) k = some v := by
  unfold mapSet
  split
  · rename_i hmem
    exact mapGet_update_self m k v hmem
  · rename_i hmem
    exact mapGet_append_self m k v hmem

lemma mapSet_keys (m : List (ℕ × PData)) (k : ℕ) (v : PData) :
    (mapSet m k v).map Prod.fst =
      if k ∈ m.map Prod.fst then m.map Prod.fst
      else m.map Prod.fst ++ [k] := by
  unfold mapSet
  split
  · rw [List.map_map]
    apply List.map_congr_left
    intro p _
    by_cases hp : p.1 = k
    · simp [hp]
    · simp [hp]
  · simp

lemma mem_mapSet_self (m : List (ℕ × PData)) (k : ℕ) (v : PData) :
    k ∈ (mapSet m k v).map Prod.fst := by
  rw [mapSet_keys]
  split
  · assumption
  · simp

lemma setHasWon_keys (m : List (ℕ × PData)) (k : ℕ) :
    (setHasWon m k).map Prod.fst = m.map Prod.fst := by
  unfold setHasWon
  rw [List.map_map]
  apply List.map_congr_left
  intro p _
  by_cases hp : p.1 = k
  · simp [hp]
  · simp [hp]

/-! ### Case lemmas for placeBet and cashOut -/

lemma placeBet_rejected_state (e : Engine) (playerId : ℕ) (amount : ℚ)
    (autoCashOut : Option ℚ) (now : ℕ) (h : ¬ canPlaceBet e = true) :
    placeBet e playerId amount autoCashOut now = (false, e) := by
  unfold placeBet
  rw [if_pos h]

lemma placeBet_rejected_threshold (e : Engine) (playerId : ℕ) (amount : ℚ)
    (autoCashOut : Option ℚ) (now : ℕ) (hcan : canPlaceBet e = true)
    (h : jsTruthy autoCashOut = true ∧ autoCashOut.getD 0 < 1.01) :
    placeBet e playerId amount autoCashOut now = (false, e) := by
  unfold placeBet
  rw [if_neg (by simp [hcan]), if_pos h]

lemma placeBet_success (e : Engine) (playerId : ℕ) (amount : ℚ)
    (autoCashOut : Option ℚ) (now : ℕ) (hcan : canPlaceBet e = true)
    (hthr : jsTruthy autoCashOut = true → 1.01 ≤ autoCashOut.getD 0) :
    placeBet e playerId amount autoCashOut now =
      (true,
        { e with
          activePlayers := mapSet e.activePlayers playerId
            ⟨amount, autoCashOut, false, now⟩,
          statsTotalBets := e.statsTotalBets + amount }) := by
  unfold placeBet
  rw [if_neg (by simp [hcan]), if_neg ?_]
  rintro ⟨ht, hlt⟩
  exact absurd (hthr ht) (not_le.2 hlt)

lemma cashOut_wrong_state (e : Engine) (playerId : ℕ)
    (h : e.state ≠ GameState.flying) :
    cashOut e playerId = (.failure "Cannot cash out at this time", e) := by
  unfold cashOut
  rw [if_pos h]

lemma cashOut_no_bet (e : Engine) (playerId : ℕ)
    (h1 : e.state = GameState.flying)
    (h2 : playerId ∉ e.activePlayers.map Prod.fst) :
    cashOut e playerId = (.failure "No active bet found", e) := by
  unfold cashOut
  rw [if_neg (by simp [h1]), if_pos h2]

lemma cashOut_already (e : Engine) (playerId : ℕ)
    (h1 : e.state = GameState.flying)
    (h2 : playerId ∈ e.activePlayers.map Prod.fst)
    (h3 : playerId ∈ e.cashedOutPlayers) :
    cashOut e playerId = (.failure "Already cashed out", e) := by
  unfold cashOut
  rw [if_neg (by simp [h1]), if_neg (by simp [h2]), if_pos h3]

/-- C2 (amended): `placeBet` succeeds if and only if the state is WAITING or
STARTING and, when `autoCashOutThreshold` is present and truthy (nonzero), it
is at least 1.01.  The engine does not validate the amount: any rational
amount, non-positive included, is accepted when the state allows betting
(amount validation happens upstream, in the transport layer's `isValidBet`).
Every failure is a returned rejection (`false`), never a throw. -/
theorem placeBet_gating (e : Engine) (playerId : ℕ) (amount : ℚ)
    (autoCashOut : Option ℚ) (now : ℕ) :
    (placeBet e playerId amount autoCashOut now).1 = true ↔
      ((e.state = GameState.waiting ∨ e.state = GameState.starting) ∧
        (jsTruthy autoCashOut = true → 1.01 ≤ autoCashOut.getD 0)) := by
  by_cases hcan : canPlaceBet e = true
  · by_cases hthr : jsTruthy autoCashOut = true ∧ autoCashOut.getD 0 < 1.01
    · rw [placeBet_rejected_threshold e playerId amount autoCashOut now hcan hthr]
      constructor
      · intro h
        simp at h
      · rintro ⟨-, h2⟩
        exact absurd (h2 hthr.1) (not_le.2 hthr.2)
    · have hthr' : jsTruthy autoCashOut = true → 1.01 ≤ autoCashOut.getD 0 := by
        intro ht
        by_contra hlt
        exact hthr ⟨ht, not_le.1 hlt⟩
      rw [placeBet_success e playerId amount autoCashOut now hcan hthr']
      simpa using ⟨(canPlaceBet_iff e).1 hcan, hthr'⟩
  · rw [placeBet_rejected_state e playerId amount autoCashOut now hcan]
    constructor
    · intro h
      simp at h
    · rintro ⟨hs, -⟩
      exact absurd ((canPlaceBet_iff e).2 hs) hcan

lemma cashOut_success (e : Engine) (playerId : ℕ)
    (h1 : e.state = GameState.flying)
    (h2 : playerId ∈ e.activePlayers.map Prod.fst)
    (h3 : playerId ∉ e.cashedOutPlayers) :
    ∃ d, mapGet e.activePlayers playerId = some d ∧
      cashOut e playerId =
        (.success e.multiplier (d.bet * e.multiplier) d.bet,
          { e with
            cashedOutPlayers := e.cashedOutPlayers ++ [playerId],
            activePlayers := setHasWon e.activePlayers playerId,
            statsTotalPayouts :=
              e.statsTotalPayouts + d.bet * e.multiplier }) := by
  obtain ⟨d, hd⟩ := mapGet_mem h2
  refine ⟨d, hd, ?_⟩
  unfold cashOut
  rw [if_neg (by simp [h1]), if_neg (by simp [h2]), if_neg (by simp [h3]), hd,
    setAdd_of_not_mem h3]

/-- Counterexample to C2 as stated: in WAITING, `placeBet` accepts the
non-positive amount `-5` (the engine performs no amount validation). -/
theorem placeBet_accepts_nonpositive_amount :
    (-5 : ℚ) < 0 ∧ engineW.state = GameState.waiting ∧
    (placeBet engineW 1 (-5) none 0).1 = true := by
  refine ⟨by norm_num, rfl, ?_⟩
  rw [placeBet_success engineW 1 (-5) none 0 rfl (by simp [jsTruthy])]

/-- C3: `cashOut` succeeds iff the state is FLYING and an unsettled active
wager exists; the three failure cases report distinct reasons; success
returns `payout = betAmount × currentMultiplier` with the multiplier used,
marks the wager settled, and a second call fails with "Already cashed
out". -/
theorem cashOut_spec (e : Engine) (playerId : ℕ) :
    (("Cannot cash out at this time" : String) ≠ "No active bet found" ∧
      ("Cannot cash out at this time" : String) ≠ "Already cashed out" ∧
      ("No active bet found" : String) ≠ "Already cashed out") ∧
    (e.state ≠ GameState.flying →
      cashOut e playerId = (.failure "Cannot cash out at this time", e)) ∧
    (e.state = GameState.flying → playerId ∉ e.activePlayers.map Prod.fst →
      cashOut e playerId = (.failure "No active bet found", e)) ∧
    (e.state = GameState.flying → playerId ∈ e.activePlayers.map Prod.fst →
      playerId ∈ e.cashedOutPlayers →
      cashOut e playerId = (.failure "Already cashed out", e)) ∧
    (e.state = GameState.flying → playerId ∈ e.activePlayers.map Prod.fst →
      playerId ∉ e.cashedOutPlayers →
      ∃ d, mapGet e.activePlayers playerId = some d ∧
        (cashOut e playerId).1
          = .success e.multiplier (d.bet * e.multiplier) d.bet ∧
        playerId ∈ (cashOut e playerId).2.cashedOutPlayers ∧
        (cashOut (cashOut e playerId).2 playerId).1
          = .failure "Already cashed out") := by
  refine ⟨⟨by decide, by decide, by decide⟩,
    fun h => cashOut_wrong_state e playerId h,
    fun h1 h2 => cashOut_no_bet e playerId h1 h2,
    fun h1 h2 h3 => cashOut_already e playerId h1 h2 h3,
    fun h1 h2 h3 => ?_⟩
  obtain ⟨d, hd, heq⟩ := cashOut_success e playerId h1 h2 h3
  refine ⟨d, hd, by rw [heq], by rw [heq]; simp, ?_⟩
  simp only [heq]
  rw [cashOut_already
    { e with
      activePlayers := setHasWon e.activePlayers playerId,
      cashedOutPlayers := e.cashedOutPlayers ++ [playerId],
      statsTotalPayouts := e.statsTotalPayouts + d.bet * e.multiplier }
    playerId h1 (by rw [setHasWon_keys] at *; exact h2) (by simp)]

/-- Counterexample to C8 as stated: two `placeBet` rejections with different
causes (wrong state vs. threshold below 1.01) return the identical bare value
`false`; the caller cannot read any reason, let alone a discriminable one,
from a `placeBet` rejection. -/
theorem placeBet_rejections_carry_no_reason :
    engineF.state ≠ GameState.waiting ∧ engineF.state ≠ GameState.starting ∧
    jsTruthy (some 1) = true ∧ (Option.some (1 : ℚ)).getD 0 < 1.01 ∧
    placeBet engineF 1 10 none 0 = (false, engineF) ∧
    placeBet engineW 1 10 (some 1) 0 = (false, engineW) ∧
    (placeBet engineF 1 10 none 0).1 = (placeBet engineW 1 10 (some 1) 0).1 := by
  refine ⟨by decide, by decide, by decide, by norm_num, ?_, ?_, ?_⟩
  · exact placeBet_rejected_state engineF 1 10 none 0 (by decide)
  · exact placeBet_rejected_threshold engineW 1 10 (some 1) 0 rfl
      ⟨by decide, by norm_num⟩
  · rw [placeBet_rejected_state engineF 1 10 none 0 (by decide),
      placeBet_rejected_threshold engineW 1 10 (some 1) 0 rfl
        ⟨by decide, by norm_num⟩]

/-- C8 (amended): every command rejection is surfaced as a returned result
value, never as a thrown error (the commands are total functions on the
engine state and leave it unchanged on every rejection); `cashOut` and
`forceCrash` rejections carry a discriminable reason string (the three
`cashOut` failure reasons are pairwise distinct), while `placeBet`
rejections are surfaced only as the bare result value `false`, with no
attached reason. -/
theorem rejection_reasons_spec (e : Engine) (playerId : ℕ) (amount : ℚ)
    (autoCashOut : Option ℚ) (now : ℕ) (reason : String) :
    ((placeBet e playerId amount autoCashOut now).1 = false →
      placeBet e playerId amount autoCashOut now = (false, e)) ∧
    (e.state ≠ GameState.flying →
      cashOut e playerId = (.failure "Cannot cash out at this time", e) ∧
      forceCrash e reason = (.failure "Game is not currently flying", e)) ∧
    (e.state = GameState.flying → playerId ∉ e.activePlayers.map Prod.fst →
      cashOut e playerId = (.failure "No active bet found", e)) ∧
    (e.state = GameState.flying → playerId ∈ e.activePlayers.map Prod.fst →
      playerId ∈ e.cashedOutPlayers →
      cashOut e playerId = (.failure "Already cashed out", e)) ∧
    (("Cannot cash out at this time" : String) ≠ "No active bet found" ∧
      ("Cannot cash out at this time" : String) ≠ "Already cashed out" ∧
      ("No active bet found" : String) ≠ "Already cashed out") := by
  refine ⟨?_, ?_, fun h1 h2 => cashOut_no_bet e playerId h1 h2,
    fun h1 h2 h3 => cashOut_already e playerId h1 h2 h3,
    by decide, by decide, by decide⟩
  · intro hfail
    by_cases hcan : canPlaceBet e = true
    · by_cases hthr : jsTruthy autoCashOut = true ∧ autoCashOut.getD 0 < 1.01
      · exact placeBet_rejected_threshold e playerId amount autoCashOut now
          hcan hthr
      · rw [placeBet_success e playerId amount autoCashOut now hcan
          (fun ht => by
            by_contra hlt
            exact hthr ⟨ht, not_le.1 hlt⟩)] at hfail
        simp at hfail
    · exact placeBet_rejected_state e playerId amount autoCashOut now hcan
  · intro h
    refine ⟨cashOut_wrong_state e playerId h, ?_⟩
    unfold forceCrash
    rw [if_pos h]

/-- Witness for `rejection_reasons_spec`: the wrong-state rejections of
`cashOut` and `forceCrash` at a concrete WAITING engine. -/
theorem rejection_reasons_spec_witness :
    engineW.state ≠ GameState.flying ∧
    cashOut engineW 1 = (.failure "Cannot cash out at this time", engineW) ∧
    forceCrash engineW "x" = (.failure "Game is not currently flying", engineW) :=
  ⟨by decide, (rejection_reasons_spec engineW 1 0 none 0 "x").2.1 (by decide)⟩

/-- C9: a successful `placeBet` for a player who already has a wager replaces
the wager entirely (only the new amount and threshold are at stake, and no
duplicate map entry appears), while `stats.totalBets` accumulates the
amounts of both calls. -/
theorem placeBet_replacement_spec (e : Engine) (playerId : ℕ)
    (amt1 amt2 : ℚ) (a1 a2 : Option ℚ) (t1 t2 : ℕ)
    (hcan : canPlaceBet e = true)
    (h1 : jsTruthy a1 = true → 1.01 ≤ a1.getD 0)
    (h2 : jsTruthy a2 = true → 1.01 ≤ a2.getD 0) :
    (placeBet e playerId amt1 a1 t1).1 = true ∧
    (placeBet (placeBet e playerId amt1 a1 t1).2 playerId amt2 a2 t2).1
      = true ∧
    mapGet (placeBet (placeBet e playerId amt1 a1 t1).2 playerId amt2 a2
        t2).2.activePlayers playerId = some ⟨amt2, a2, false, t2⟩ ∧
    (placeBet (placeBet e playerId amt1 a1 t1).2 playerId amt2 a2
        t2).2.activePlayers.map Prod.fst
      = (placeBet e playerId amt1 a1 t1).2.activePlayers.map Prod.fst ∧
    (placeBet (placeBet e playerId amt1 a1 t1).2 playerId amt2 a2
        t2).2.statsTotalBets = e.statsTotalBets + amt1 + amt2 := by
  rw [placeBet_success e playerId amt1 a1 t1 hcan h1]
  rw [placeBet_success
    { e with
      activePlayers := mapSet e.activePlayers playerId ⟨amt1, a1, false, t1⟩,
      statsTotalBets := e.statsTotalBets + amt1 }
    playerId amt2 a2 t2 hcan h2]
  refine ⟨rfl, rfl, ?_, ?_, rfl⟩
  · exact mapGet_mapSet_self _ playerId _
  · rw [mapSet_keys, if_pos (mem_mapSet_self _ playerId _)]

/-- Witness for `placeBet_replacement_spec` at a concrete WAITING engine:
bet 100 then bet 40 for the same player. -/
theorem placeBet_replacement_spec_witness :
    canPlaceBet engineW = true ∧
    mapGet (placeBet (placeBet engineW 1 100 none 3).2 1 40 (some 2)
        7).2.activePlayers 1 = some ⟨40, some 2, false, 7⟩ ∧
    (placeBet (placeBet engineW 1 100 none 3).2 1 40 (some 2)
        7).2.statsTotalBets = engineW.statsTotalBets + 100 + 40 := by
  have h := placeBet_replacement_spec engineW 1 100 40 none (some 2) 3 7 rfl
    (by simp [jsTruthy]) (by intro h; norm_num [Option.getD])
  exact ⟨rfl, h.2.2.1, h.2.2.2.2⟩

/-! ### The no-fire property of falsy thresholds -/

lemma foldl_autoStep_no_fire (playerId : ℕ) (l : List (ℕ × PData))
    (e : Engine)
    (hl : ∀ p ∈ l, p.1 = playerId → jsTruthy p.2.autoCashOut = false) :
    autoEventsFor playerId (l.foldl autoCashOutStep e).events
      = autoEventsFor playerId e.events ∧
    (playerId ∈ (l.foldl autoCashOutStep e).cashedOutPlayers ↔
      playerId ∈ e.cashedOutPlayers) := by
  induction l generalizing e with
  | nil => exact ⟨rfl, Iff.rfl⟩
  | cons p rest ih =>
    rw [List.foldl_cons]
    have hstep :
        autoEventsFor playerId (autoCashOutStep e p).events
          = autoEventsFor playerId e.events ∧
        (playerId ∈ (autoCashOutStep e p).cashedOutPlayers ↔
          playerId ∈ e.cashedOutPlayers) := by
      unfold autoCashOutStep
      split
      · rename_i hg
        by_cases hp : p.1 = playerId
        · rw [hl p (List.mem_cons_self p rest) hp] at hg
          exact absurd hg.1 (by simp)
        · unfold performAutoCashOut
          constructor
          · simp [autoEventsFor, List.countP_append, isAutoFor, hp]
          · simp only [mem_setAdd]
            constructor
            · rintro (h | h)
              · exact h
              · exact absurd h.symm hp
            · exact Or.inl
      · exact ⟨rfl, Iff.rfl⟩
    obtain ⟨ha, hb⟩ :=
      ih (autoCashOutStep e p) (fun q hq => hl q (List.mem_cons_of_mem p hq))
    exact ⟨ha.trans hstep.1, hb.trans hstep.2⟩

/-- C10: a `placeBet` whose `autoCashOutThreshold` argument is falsy (absent,
or `0`) is accepted rather than rejected by the below-1.01 validation, and
the resulting wager is never auto-cashed-out: on every tick's
`checkAutoCashOuts` pass, whatever the multiplier, a player whose stored
threshold is falsy receives no `player_auto_cashed_out` event and is not
marked settled. -/
theorem falsy_autoCashOut_spec (e : Engine) (playerId : ℕ) (amount : ℚ)
    (autoCashOut : Option ℚ) (now : ℕ)
    (hfalsy : jsTruthy autoCashOut = false) (hcan : canPlaceBet e = true) :
    (placeBet e playerId amount autoCashOut now).1 = true ∧
    mapGet (placeBet e playerId amount autoCashOut
        now).2.activePlayers playerId = some ⟨amount, autoCashOut, false, now⟩ ∧
    (∀ e2 : Engine,
      (∀ p ∈ e2.activePlayers, p.1 = playerId →
        jsTruthy p.2.autoCashOut = false) →
      autoEventsFor playerId (checkAutoCashOuts e2).events
        = autoEventsFor playerId e2.events ∧
      (playerId ∈ (checkAutoCashOuts e2).cashedOutPlayers ↔
        playerId ∈ e2.cashedOutPlayers)) := by
  rw [placeBet_success e playerId amount autoCashOut now hcan
    (fun ht => absurd ht (by simp [hfalsy]))]
  exact ⟨rfl, mapGet_mapSet_self _ playerId _,
    fun e2 hl => foldl_autoStep_no_fire playerId e2.activePlayers e2 hl⟩

/-- Witness for `falsy_autoCashOut_spec` at a concrete STARTING engine and a
threshold argument of `0`, checked against a FLYING engine at 1000× whose
stored threshold for the player is `0`. -/
theorem falsy_autoCashOut_spec_witness :
    jsTruthy (some 0) = false ∧
    (placeBet engineW 1 100 (some 0) 0).1 = true ∧
    (autoEventsFor 1
        (checkAutoCashOuts
          { engineF with
            multiplier := 1000,
            activePlayers := [(1, ⟨100, some 0, false, 0⟩)] }).events
      = autoEventsFor 1
          ({ engineF with
            multiplier := 1000,
            activePlayers := [(1, ⟨100, some 0, false, 0⟩)] } :
              Engine).events ∧
    (1 ∈ (checkAutoCashOuts
          { engineF with
            multiplier := 1000,
            activePlayers := [(1, ⟨100, some 0, false, 0⟩)] }).cashedOutPlayers ↔
      1 ∈ ({ engineF with
            multiplier := 1000,
            activePlayers := [(1, ⟨100, some 0, false, 0⟩)] } :
              Engine).cashedOutPlayers)) := by
  have h := falsy_autoCashOut_spec engineW 1 100 (some 0) 0 (by decide) rfl
  exact ⟨by decide, h.1, h.2.2 _ (by decide)⟩

/-! ### Settlement characterisation and crashGame projections -/

lemma finalizeBetsList_losers (cashedOut : List ℕ) (l : List (ℕ × PData)) :
    (finalizeBetsList cashedOut l).2
      = (l.filter (fun p => decide (p.1 ∉ cashedOut))).map
          (fun p => (p.1, p.2.bet)) := by
  induction l with
  | nil => rfl
  | cons p rest ih =>
    by_cases hp : p.1 ∈ cashedOut <;>
      simp [finalizeBetsList, hp, ih, List.filter_cons]

lemma finalizeBetsList_participants (cashedOut : List ℕ)
    (l : List (ℕ × PData)) :
    (finalizeBetsList cashedOut l).1
      = l.map (fun p => ⟨p.1, p.2.bet, p.2.autoCashOut,
          decide (p.1 ∈ cashedOut)⟩) := by
  induction l with
  | nil => rfl
  | cons p rest ih => simp [finalizeBetsList, ih]

lemma crashGame_state (e : Engine) (t : Option String) :
    (crashGame e t).state = GameState.crashed := rfl

lemma crashGame_multiplier (e : Engine) (t : Option String) :
    (crashGame e t).multiplier = e.multiplier := rfl

lemma crashGame_events (e : Engine) (t : Option String) :
    (crashGame e t).events = e.events
      ++ (if e.startTime.isSome then [Ev.multiplierUpdate e.multiplier]
          else [])
      ++ [Ev.gameStateChanged GameState.crashed e.multiplier]
      ++ [Ev.roundSettled e.multiplier
            (finalizeBetsList e.cashedOutPlayers e.activePlayers).2
            (finalizeBetsList e.cashedOutPlayers e.activePlayers).1] := rfl

lemma settledEvents_append (a b : List Ev) :
    settledEvents (a ++ b) = settledEvents a ++ settledEvents b :=
  List.filterMap_append a b settledOf

lemma settledEvents_crashGame (e : Engine) (t : Option String) :
    settledEvents (crashGame e t).events
      = settledEvents e.events
        ++ [(e.multiplier,
              (finalizeBetsList e.cashedOutPlayers e.activePlayers).2,
              (finalizeBetsList e.cashedOutPlayers e.activePlayers).1)] := by
  rw [crashGame_events, settledEvents_append, settledEvents_append,
    settledEvents_append]
  have hmu : settledEvents
      (if e.startTime.isSome then [Ev.multiplierUpdate e.multiplier]
        else []) = [] := by
    split <;> rfl
  rw [hmu]
  simp [settledEvents, settledOf]

/-- Counterexample to C6 as stated: the engine state and the emitted
`round_settled` event produced by `forceCrash` are identical for two
different reasons — the settlement is not tagged with the reason (which the
source only prints to the console). -/
theorem forceCrash_reason_not_tagged :
    engineF.state = GameState.flying ∧
    settledEvents (forceCrash engineF "admin_override").2.events ≠ [] ∧
    forceCrash engineF "admin_override" = forceCrash engineF "maintenance" :=
  ⟨rfl, by decide, rfl⟩

/-- C6 (amended): `forceCrash(reason)` fails when the state is not FLYING;
when FLYING it immediately performs the CRASHED transition with the
multiplier at the moment of the call as the final multiplier, `round_settled`
is emitted carrying the accurate winner/loser partition (losers are exactly
the active wagers not in the settled set), and a second `forceCrash` fails
because the state is CRASHED.  The given reason is only logged; it does not
tag the settlement event. -/
theorem forceCrash_spec (e : Engine) (reason : String) :
    (e.state ≠ GameState.flying →
      forceCrash e reason = (.failure "Game is not currently flying", e)) ∧
    (e.state = GameState.flying →
      (forceCrash e reason).1 = .success e.multiplier ∧
      (forceCrash e reason).2.state = GameState.crashed ∧
      (forceCrash e reason).2.multiplier = e.multiplier ∧
      settledEvents (forceCrash e reason).2.events
        = settledEvents e.events
          ++ [(e.multiplier,
                (e.activePlayers.filter
                  (fun p => decide (p.1 ∉ e.cashedOutPlayers))).map
                    (fun p => (p.1, p.2.bet)),
                e.activePlayers.map
                  (fun p => ⟨p.1, p.2.bet, p.2.autoCashOut,
                    decide (p.1 ∈ e.cashedOutPlayers)⟩))] ∧
      (∀ reason2 : String,
        (forceCrash (forceCrash e reason).2 reason2).1
          = .failure "Game is not currently flying")) := by
  constructor
  · intro h
    unfold forceCrash
    rw [if_pos h]
  · intro h
    have hfc : forceCrash e reason
        = (.success (crashGame e (some reason)).multiplier,
            crashGame e (some reason)) := by
      unfold forceCrash
      rw [if_neg (by simp [h])]
    simp only [hfc]
    refine ⟨by rw [crashGame_multiplier], crashGame_state e (some reason),
      crashGame_multiplier e (some reason), ?_, ?_⟩
    · rw [settledEvents_crashGame, finalizeBetsList_losers,
        finalizeBetsList_participants]
    · intro reason2
      unfold forceCrash
      rw [if_pos (by rw [crashGame_state]; simp)]

/-- Witness for `forceCrash_spec`: the FLYING case at a concrete engine,
including the immediate-retry failure. -/
theorem forceCrash_spec_witness :
    engineF.state = GameState.flying ∧
    (forceCrash engineF "admin_override").1 = .success engineF.multiplier ∧
    (forceCrash engineF "admin_override").2.state = GameState.crashed ∧
    (forceCrash (forceCrash engineF "admin_override").2 "again").1
      = .failure "Game is not currently flying" := by
  have h := (forceCrash_spec engineF "admin_override").2 rfl
  exact ⟨rfl, h.1, h.2.1, h.2.2.2.2 "again"⟩

/-! ### History bound -/

lemma take_append_take {α : Type} (n : ℕ) (X Y : List α) :
    (X ++ Y.take n).take n = (X ++ Y).take n := by
  rw [List.take_append_eq_append_take, List.take_append_eq_append_take,
    List.take_take]
  rw [min_eq_left (Nat.sub_le n _)]

lemma addToHistoryList_eq (hist : List ℚ) (m : ℚ)
    (hlen : hist.length ≤ historySize) :
    addToHistoryList hist m = (toFixed2 m :: hist).take historySize := by
  unfold addToHistoryList
  dsimp only
  split
  · rename_i h
    simp only [List.length_cons] at h
    have h20 : hist.length = historySize := le_antisymm hlen (by omega)
    rw [List.dropLast_eq_take]
    simp [h20]
  · rename_i h
    simp only [List.length_cons] at h
    rw [List.take_of_length_le (by simp; omega)]

lemma foldl_addToHistoryList (finals : List ℚ) (acc : List ℚ)
    (hacc : acc.length ≤ historySize) :
    finals.foldl addToHistoryList acc
      = ((finals.map toFixed2).reverse ++ acc).take historySize := by
  induction finals generalizing acc with
  | nil =>
    rw [List.map_nil, List.reverse_nil, List.nil_append,
      List.take_of_length_le hacc, List.foldl_nil]
  | cons f rest ih =>
    rw [List.foldl_cons, addToHistoryList_eq acc f hacc,
      ih _ (by rw [List.length_take]; omega)]
    rw [List.map_cons, List.reverse_cons, List.append_assoc]
    exact take_append_take historySize _ _

/-- C7: starting from an empty history, after completing more rounds than the
capacity (20), the history has length exactly the capacity and consists of
exactly the capacity most recent final multipliers, newest first (each stored
as the source stores it, rounded to two decimals); each completed round
applies `addToHistory` with that round's final multiplier, evicting the
oldest entry when full. -/
theorem history_bound_spec (finals : List ℚ)
    (hlen : historySize < finals.length) :
    (finals.foldl addToHistoryList []).length = historySize ∧
    finals.foldl addToHistoryList []
      = (finals.reverse.take historySize).map toFixed2 ∧
    (∀ e : Engine, ∀ t : Option String,
      (crashGame e t).history = addToHistoryList e.history e.multiplier) := by
  have h := foldl_addToHistoryList finals [] (by simp)
  rw [List.append_nil] at h
  refine ⟨?_, ?_, fun e t => rfl⟩
  · rw [h, List.length_take, List.length_reverse, List.length_map]
    omega
  · rw [h, ← List.map_reverse, ← List.map_take]

/-- Witness for `history_bound_spec`: 21 completed rounds against the
capacity of 20. -/
theorem history_bound_spec_witness :
    historySize
      < ([1, 2, 3, 4, 5, 6, 7, 8, 9, 10, 11, 12, 13, 14, 15, 16, 17, 18, 19,
          20, 21] : List ℚ).length ∧
    (([1, 2, 3, 4, 5, 6, 7, 8, 9, 10, 11, 12, 13, 14, 15, 16, 17, 18, 19,
        20, 21] : List ℚ).foldl addToHistoryList []).length = historySize := by
  refine ⟨by decide, ?_⟩
  exact (history_bound_spec
    [1, 2, 3, 4, 5, 6, 7, 8, 9, 10, 11, 12, 13, 14, 15, 16, 17, 18, 19,
      20, 21] (by decide)).1

/-- Witness for `cashOut_spec`: the success case and the follow-up failure at
a concrete flying engine. -/
theorem cashOut_spec_witness :
    engineF.state = GameState.flying ∧
    1 ∈ engineF.activePlayers.map Prod.fst ∧
    1 ∉ engineF.cashedOutPlayers ∧
    ∃ d, mapGet engineF.activePlayers 1 = some d ∧
      (cashOut engineF 1).1
        = .success engineF.multiplier (d.bet * engineF.multiplier) d.bet ∧
      1 ∈ (cashOut engineF 1).2.cashedOutPlayers ∧
      (cashOut (cashOut engineF 1).2 1).1 = .failure "Already cashed out" :=
  ⟨rfl, by decide, by decide,
    (cashOut_spec engineF 1).2.2.2.2 rfl (by decide) (by decide)⟩


/-! ### Exactly-once settlement: invariant preservation -/

lemma performAutoCashOut_state (e : Engine) (pid : ℕ) (d : PData) :
    (performAutoCashOut e pid d).state = e.state := rfl

lemma performAutoCashOut_activePlayers (e : Engine) (pid : ℕ) (d : PData) :
    (performAutoCashOut e pid d).activePlayers
      = setHasWon e.activePlayers pid := rfl

lemma performAutoCashOut_cashedOutPlayers (e : Engine) (pid : ℕ) (d : PData) :
    (performAutoCashOut e pid d).cashedOutPlayers
      = setAdd e.cashedOutPlayers pid := rfl

lemma performAutoCashOut_events (e : Engine) (pid : ℕ) (d : PData) :
    (performAutoCashOut e pid d).events
      = e.events ++ [Ev.playerAutoCashedOut pid e.multiplier
          (d.bet * e.multiplier) d.bet] := rfl

lemma autoEventsFor_append (pid : ℕ) (a b : List Ev) :
    autoEventsFor pid (a ++ b)
      = autoEventsFor pid a + autoEventsFor pid b := by
  simp [autoEventsFor, List.countP_append]

lemma autoEventsFor_auto_self (pid : ℕ) (m w b : ℚ) :
    autoEventsFor pid [Ev.playerAutoCashedOut pid m w b] = 1 := by
  simp [autoEventsFor, isAutoFor]

lemma autoEventsFor_auto_ne {pid q : ℕ} (h : ¬ q = pid) (m w b : ℚ) :
    autoEventsFor pid [Ev.playerAutoCashedOut q m w b] = 0 := by
  simp [autoEventsFor, isAutoFor, h]

lemma autoEventsFor_gsc (pid : ℕ) (st : GameState) (m : ℚ) :
    autoEventsFor pid [Ev.gameStateChanged st m] = 0 := rfl

lemma autoEventsFor_mu (pid : ℕ) (m : ℚ) :
    autoEventsFor pid [Ev.multiplierUpdate m] = 0 := rfl

lemma settledEvents_gsc (st : GameState) (m : ℚ) :
    settledEvents [Ev.gameStateChanged st m] = [] := rfl

lemma settledEvents_mu (m : ℚ) :
    settledEvents [Ev.multiplierUpdate m] = [] := rfl

lemma settledEvents_auto (pid : ℕ) (m w b : ℚ) :
    settledEvents [Ev.playerAutoCashedOut pid m w b] = [] := rfl

lemma foldl_autoStep_inv (keys0 moks : List ℕ) (l : List (ℕ × PData))
    (e : Engine) (hl : ∀ p ∈ l, p.1 ∈ keys0)
    (hinv : EngInv keys0 moks e) :
    EngInv keys0 moks (l.foldl autoCashOutStep e) ∧
    (l.foldl autoCashOutStep e).state = e.state := by
  induction l generalizing e with
  | nil => exact ⟨hinv, rfl⟩
  | cons p rest ih =>
    rw [List.foldl_cons]
    have hstep : EngInv keys0 moks (autoCashOutStep e p) ∧
        (autoCashOutStep e p).state = e.state := by
      obtain ⟨hkeys, hsev, hcnt⟩ := hinv
      unfold autoCashOutStep
      split
      · rename_i hg
        obtain ⟨-, hg2, -⟩ := hg
        refine ⟨⟨?_, ?_, ?_⟩, performAutoCashOut_state e p.1 p.2⟩
        · rw [performAutoCashOut_activePlayers, setHasWon_keys]
          exact hkeys
        · rw [performAutoCashOut_events, settledEvents_append, hsev,
            settledEvents_auto]
          rfl
        · intro q
          rw [performAutoCashOut_events, autoEventsFor_append,
            performAutoCashOut_cashedOutPlayers, setAdd_of_not_mem hg2]
          by_cases hq : q = p.1
          · subst hq
            rw [autoEventsFor_auto_self]
            have h0 := hcnt p.1
            rw [if_neg hg2] at h0
            rw [if_pos (by simp)]
            omega
          · rw [autoEventsFor_auto_ne (by exact fun h => hq h.symm)]
            have hmem : q ∈ e.cashedOutPlayers ++ [p.1] ↔
                q ∈ e.cashedOutPlayers := by
              simp [hq]
            by_cases hqc : q ∈ e.cashedOutPlayers
            · rw [if_pos (hmem.2 hqc)]
              have h0 := hcnt q
              rw [if_pos hqc] at h0
              omega
            · rw [if_neg (fun hmm => hqc (hmem.1 hmm))]
              have h0 := hcnt q
              rw [if_neg hqc] at h0
              omega
      · exact ⟨⟨hkeys, hsev, hcnt⟩, rfl⟩
    obtain ⟨ha, hb⟩ :=
      ih (autoCashOutStep e p) (fun q hq => hl q (List.mem_cons_of_mem p hq))
        hstep.1
    exact ⟨ha, hb.trans hstep.2⟩

lemma checkAutoCashOuts_inv (keys0 moks : List ℕ) (e : Engine)
    (hinv : EngInv keys0 moks e) :
    EngInv keys0 moks (checkAutoCashOuts e) ∧
    (checkAutoCashOuts e).state = e.state := by
  apply foldl_autoStep_inv keys0 moks e.activePlayers e _ hinv
  intro p hp
  rw [← hinv.1]
  exact List.mem_map_of_mem Prod.fst hp

lemma finalizeBetsList_losers_count (c : List ℕ) (l : List (ℕ × PData))
    (pid : ℕ) :
    (((finalizeBetsList c l).2).map Prod.fst).count pid
      = if pid ∈ c then 0 else (l.map Prod.fst).count pid := by
  rw [finalizeBetsList_losers]
  induction l with
  | nil => simp
  | cons p rest ih =>
    by_cases hp : p.1 ∈ c
    · rw [List.filter_cons_of_neg (by simp [hp]), ih]
      by_cases hq : pid ∈ c
      · rw [if_pos hq, if_pos hq]
      · rw [if_neg hq, if_neg hq]
        have hne : ¬ p.1 = pid := fun h => hq (h ▸ hp)
        simp [List.count_cons, hne]
    · rw [List.filter_cons_of_pos (by simp [hp])]
      simp only [List.map_cons]
      rw [List.count_cons, List.count_cons, ih]
      by_cases hq : pid ∈ c
      · have hne : ¬ p.1 = pid := fun h => hp (h ▸ hq)
        rw [if_pos hq, if_pos hq]
        simp [hne]
      · rw [if_neg hq, if_neg hq]

lemma crashGame_settles (keys0 moks : List ℕ) (e : Engine) (t : Option String)
    (hnd : keys0.Nodup) (hinv : EngInv keys0 moks e) :
    (crashGame e t).state = GameState.crashed ∧
    ∃ fm losers parts,
      settledEvents (crashGame e t).events = [(fm, losers, parts)] ∧
      ∀ pid ∈ keys0,
        moks.count pid + autoEventsFor pid (crashGame e t).events
          + (losers.map Prod.fst).count pid = 1 := by
  obtain ⟨hkeys, hsev, hcnt⟩ := hinv
  refine ⟨crashGame_state e t, e.multiplier,
    (finalizeBetsList e.cashedOutPlayers e.activePlayers).2,
    (finalizeBetsList e.cashedOutPlayers e.activePlayers).1, ?_, ?_⟩
  · rw [settledEvents_crashGame, hsev]
    rfl
  · intro pid hpid
    have hauto : autoEventsFor pid (crashGame e t).events
        = autoEventsFor pid e.events := by
      rw [crashGame_events, autoEventsFor_append, autoEventsFor_append,
        autoEventsFor_append]
      have h1 : autoEventsFor pid
          (if e.startTime.isSome then [Ev.multiplierUpdate e.multiplier]
            else []) = 0 := by
        split
        · exact autoEventsFor_mu pid e.multiplier
        · rfl
      rw [h1, autoEventsFor_gsc]
      have h2 : autoEventsFor pid
          [Ev.roundSettled e.multiplier
            (finalizeBetsList e.cashedOutPlayers e.activePlayers).2
            (finalizeBetsList e.cashedOutPlayers e.activePlayers).1] = 0 := rfl
      rw [h2]
      omega
    rw [hauto, finalizeBetsList_losers_count, hkeys]
    by_cases hmem : pid ∈ e.cashedOutPlayers
    · have h0 := hcnt pid
      rw [if_pos hmem] at h0
      rw [if_pos hmem]
      omega
    · have h0 := hcnt pid
      rw [if_neg hmem] at h0
      rw [if_neg hmem, List.count_eq_one_of_mem hnd hpid]
      omega

lemma roundStep_manual_inv (keys0 : List ℕ) (s : RoundRun) (pid : ℕ)
    (hfly : s.eng.state = GameState.flying)
    (hinv : EngInv keys0 s.manualOks s.eng) :
    (roundStep s (.manual pid)).eng.state = GameState.flying ∧
    EngInv keys0 (roundStep s (.manual pid)).manualOks
      (roundStep s (.manual pid)).eng := by
  obtain ⟨hkeys, hsev, hcnt⟩ := hinv
  by_cases h2 : pid ∈ s.eng.activePlayers.map Prod.fst
  · by_cases h3 : pid ∈ s.eng.cashedOutPlayers
    · have heq := cashOut_already s.eng pid hfly h2 h3
      unfold roundStep
      simp only [heq]
      exact ⟨hfly, hkeys, hsev, hcnt⟩
    · obtain ⟨d, hd, heq⟩ := cashOut_success s.eng pid hfly h2 h3
      unfold roundStep
      simp only [heq]
      refine ⟨hfly, ?_, hsev, ?_⟩
      · rw [setHasWon_keys]
        exact hkeys
      · intro q
        show List.count q (s.manualOks ++ [pid])
            + autoEventsFor q s.eng.events
          = if q ∈ s.eng.cashedOutPlayers ++ [pid] then 1 else 0
        by_cases hq : q = pid
        · subst hq
          rw [List.count_append]
          have h0 := hcnt q
          rw [if_neg h3] at h0
          rw [if_pos (by simp)]
          have hone : List.count q [q] = 1 := by simp
          omega
        · rw [List.count_append]
          have hone : List.count q [pid] = 0 := by
            simp [List.count_singleton, hq]
          have hmem : q ∈ s.eng.cashedOutPlayers ++ [pid] ↔
              q ∈ s.eng.cashedOutPlayers := by
            simp [hq]
          rw [hone]
          by_cases hqc : q ∈ s.eng.cashedOutPlayers
          · rw [if_pos (hmem.2 hqc)]
            have h0 := hcnt q
            rw [if_pos hqc] at h0
            omega
          · rw [if_neg (fun hmm => hqc (hmem.1 hmm))]
            have h0 := hcnt q
            rw [if_neg hqc] at h0
            omega
  · have heq := cashOut_no_bet s.eng pid hfly h2
    unfold roundStep
    simp only [heq]
    exact ⟨hfly, hkeys, hsev, hcnt⟩

lemma engInv_append_nonauto (keys0 moks : List ℕ) (e : Engine)
    (evs : List Ev) (m : ℚ)
    (hsevs : settledEvents evs = [])
    (hauto : ∀ pid, autoEventsFor pid evs = 0)
    (hinv : EngInv keys0 moks e) :
    EngInv keys0 moks { e with multiplier := m, events := e.events ++ evs } := by
  obtain ⟨hkeys, hsev, hcnt⟩ := hinv
  refine ⟨hkeys, ?_, ?_⟩
  · show settledEvents (e.events ++ evs) = []
    rw [settledEvents_append, hsev, hsevs]
    rfl
  · intro q
    show moks.count q + autoEventsFor q (e.events ++ evs)
      = if q ∈ e.cashedOutPlayers then 1 else 0
    rw [autoEventsFor_append, hauto q]
    have h0 := hcnt q
    omega

lemma engInv_append_events (keys0 moks : List ℕ) (e : Engine)
    (evs : List Ev)
    (hsevs : settledEvents evs = [])
    (hauto : ∀ pid, autoEventsFor pid evs = 0)
    (hinv : EngInv keys0 moks e) :
    EngInv keys0 moks { e with events := e.events ++ evs } := by
  obtain ⟨hkeys, hsev, hcnt⟩ := hinv
  refine ⟨hkeys, ?_, ?_⟩
  · show settledEvents (e.events ++ evs) = []
    rw [settledEvents_append, hsev, hsevs]
    rfl
  · intro q
    show moks.count q + autoEventsFor q (e.events ++ evs)
      = if q ∈ e.cashedOutPlayers then 1 else 0
    rw [autoEventsFor_append, hauto q]
    have h0 := hcnt q
    omega

lemma updateGame_not_flying (e : Engine) (m : ℚ) (p c x : Bool)
    (h : e.state ≠ GameState.flying) :
    updateGame e m p c x = e := by
  unfold updateGame
  rw [if_pos h]


lemma updateGame_flying_crash (e : Engine) (m : ℚ) (p x : Bool)
    (hfly : e.state = GameState.flying) :
    updateGame e m p true x
      = crashGame
          { e with
            multiplier := m,
            events := e.events ++ (if p then [Ev.multiplierUpdate m] else []) }
          none := by
  unfold updateGame
  rw [if_neg (by simp [hfly])]
  rfl

lemma updateGame_flying_maxtime (e : Engine) (m : ℚ) (p : Bool)
    (hfly : e.state = GameState.flying) :
    updateGame e m p false true
      = crashGame
          { e with
            multiplier := m,
            events := e.events ++ (if p then [Ev.multiplierUpdate m] else []) }
          none := by
  unfold updateGame
  rw [if_neg (by simp [hfly])]
  rfl

lemma updateGame_flying_normal (e : Engine) (m : ℚ) (p : Bool)
    (hfly : e.state = GameState.flying) :
    updateGame e m p false false
      = { checkAutoCashOuts
            { e with
              multiplier := m,
              events := e.events
                ++ (if p then [Ev.multiplierUpdate m] else []) } with
          events :=
            (checkAutoCashOuts
              { e with
                multiplier := m,
                events := e.events
                  ++ (if p then [Ev.multiplierUpdate m] else []) }).events
            ++ [Ev.gameStateChanged
                  (checkAutoCashOuts
                    { e with
                      multiplier := m,
                      events := e.events
                        ++ (if p then [Ev.multiplierUpdate m] else []) }).state
                  (checkAutoCashOuts
                    { e with
                      multiplier := m,
                      events := e.events
                        ++ (if p then [Ev.multiplierUpdate m] else
                              []) }).multiplier] } := by
  unfold updateGame
  rw [if_neg (by simp [hfly])]
  rfl

lemma settledEvents_pred (p : Bool) (m : ℚ) :
    settledEvents (if p then [Ev.multiplierUpdate m] else []) = [] := by
  split <;> rfl

lemma autoEventsFor_pred (pid : ℕ) (p : Bool) (m : ℚ) :
    autoEventsFor pid (if p then [Ev.multiplierUpdate m] else []) = 0 := by
  split <;> rfl

lemma roundStep_tick_inv (keys0 : List ℕ) (hnd : keys0.Nodup) (s : RoundRun)
    (m : ℚ) (p c x : Bool)
    (hfly : s.eng.state = GameState.flying)
    (hinv : EngInv keys0 s.manualOks s.eng) :
    RoundInv keys0 (roundStep s (.tick m p c x)) := by
  have hinv1 : EngInv keys0 s.manualOks
      { s.eng with
        multiplier := m,
        events := s.eng.events
          ++ (if p then [Ev.multiplierUpdate m] else []) } :=
    engInv_append_nonauto keys0 s.manualOks s.eng _ m (settledEvents_pred p m)
      (fun q => autoEventsFor_pred q p m) hinv
  simp only [roundStep]
  cases c with
  | true =>
    rw [updateGame_flying_crash s.eng m p x hfly]
    unfold RoundInv
    right
    have h := crashGame_settles keys0 s.manualOks _ none hnd hinv1
    exact ⟨h.1, h.2⟩
  | false =>
    cases x with
    | true =>
      rw [updateGame_flying_maxtime s.eng m p hfly]
      unfold RoundInv
      right
      have h := crashGame_settles keys0 s.manualOks _ none hnd hinv1
      exact ⟨h.1, h.2⟩
    | false =>
      rw [updateGame_flying_normal s.eng m p hfly]
      unfold RoundInv
      left
      obtain ⟨h2inv, h2state⟩ := checkAutoCashOuts_inv keys0 s.manualOks _ hinv1
      constructor
      · show (checkAutoCashOuts _).state = GameState.flying
        rw [h2state]
        exact hfly
      · exact engInv_append_events keys0 s.manualOks _ _
          (settledEvents_gsc _ _) (fun q => autoEventsFor_gsc q _ _) h2inv

lemma roundStep_crashed (s : RoundRun) (a : RoundAct)
    (h : s.eng.state = GameState.crashed) : roundStep s a = s := by
  have hnf : s.eng.state ≠ GameState.flying := by
    rw [h]
    simp
  cases a with
  | tick m p c x =>
    simp only [roundStep]
    rw [updateGame_not_flying s.eng m p c x hnf]
  | manual pid =>
    simp only [roundStep, cashOut_wrong_state s.eng pid hnf]
  | force r =>
    simp only [roundStep]
    unfold forceCrash
    rw [if_pos hnf]

lemma roundStep_inv (keys0 : List ℕ) (hnd : keys0.Nodup) (s : RoundRun)
    (a : RoundAct) (hinv : RoundInv keys0 s) :
    RoundInv keys0 (roundStep s a) := by
  rcases hinv with ⟨hfly, henginv⟩ | ⟨hcr, hset⟩
  · cases a with
    | tick m p c x => exact roundStep_tick_inv keys0 hnd s m p c x hfly henginv
    | manual pid =>
      obtain ⟨h1, h2⟩ := roundStep_manual_inv keys0 s pid hfly henginv
      exact Or.inl ⟨h1, h2⟩
    | force r =>
      simp only [roundStep]
      have hfc : (forceCrash s.eng r).2 = crashGame s.eng (some r) := by
        unfold forceCrash
        rw [if_neg (by simp [hfly])]
      simp only [hfc]
      unfold RoundInv
      right
      have h := crashGame_settles keys0 s.manualOks s.eng (some r) hnd henginv
      exact ⟨h.1, h.2⟩
  · rw [roundStep_crashed s a hcr]
    exact Or.inr ⟨hcr, hset⟩

lemma runRound_inv (keys0 : List ℕ) (hnd : keys0.Nodup)
    (acts : List RoundAct) (s : RoundRun) (hinv : RoundInv keys0 s) :
    RoundInv keys0 (runRound s acts) := by
  induction acts generalizing s with
  | nil => exact hinv
  | cons a rest ih =>
    exact ih (roundStep s a) (roundStep_inv keys0 hnd s a hinv)

/-- C1: in a round that starts FLYING with cleared settlement markers (as
`startGame` produces) and distinct player ids, once the round has crashed —
after any interleaving of ticks, manual cash-out requests and force-crash
calls — exactly one `round_settled` event was emitted, and every wager active
at the start of the round has exactly one outcome: its manual cash-out
successes plus its auto-cash-out events plus its appearances in the losers
list total exactly 1.  In particular a settled wager is never settled again
and never appears among the losers. -/
theorem round_settlement_exactly_once (e0 : Engine) (acts : List RoundAct)
    (playerId : ℕ)
    (hstate : e0.state = GameState.flying)
    (hcash : e0.cashedOutPlayers = [])
    (hev : e0.events = [])
    (hnd : (e0.activePlayers.map Prod.fst).Nodup)
    (hmem : playerId ∈ e0.activePlayers.map Prod.fst)
    (hend : (runRound ⟨e0, []⟩ acts).eng.state = GameState.crashed) :
    ∃ fm losers parts,
      settledEvents (runRound ⟨e0, []⟩ acts).eng.events
        = [(fm, losers, parts)] ∧
      (runRound ⟨e0, []⟩ acts).manualOks.count playerId
        + autoEventsFor playerId (runRound ⟨e0, []⟩ acts).eng.events
        + (losers.map Prod.fst).count playerId = 1 := by
  have hinv0 : RoundInv (e0.activePlayers.map Prod.fst) ⟨e0, []⟩ := by
    left
    refine ⟨hstate, rfl, by rw [hev]; rfl, ?_⟩
    intro q
    rw [hev, hcash]
    simp [autoEventsFor]
  have hfinal := runRound_inv _ hnd acts _ hinv0
  rcases hfinal with ⟨hfly, -⟩ | ⟨-, fm, losers, parts, hsev, hcount⟩
  · rw [hend] at hfly
    exact absurd hfly (by simp)
  · exact ⟨fm, losers, parts, hsev, hcount playerId hmem⟩

/-- Witness for `round_settlement_exactly_once`: a concrete one-player round
that crashes on its first tick; the player's single outcome is the losers
list. -/
theorem round_settlement_exactly_once_witness :
    engineF.state = GameState.flying ∧
    (runRound ⟨engineF, []⟩ [RoundAct.tick 3 false true false]).eng.state
      = GameState.crashed ∧
    ∃ fm losers parts,
      settledEvents
          (runRound ⟨engineF, []⟩ [RoundAct.tick 3 false true
            false]).eng.events
        = [(fm, losers, parts)] ∧
      (runRound ⟨engineF, []⟩
            [RoundAct.tick 3 false true false]).manualOks.count 1
        + autoEventsFor 1
            (runRound ⟨engineF, []⟩ [RoundAct.tick 3 false true
              false]).eng.events
        + (losers.map Prod.fst).count 1 = 1 :=
  ⟨rfl, by decide,
    round_settlement_exactly_once engineF [RoundAct.tick 3 false true false] 1
      rfl rfl rfl (by decide) (by decide) (by decide)⟩
